import Mathlib

/-
Verification of the research-papers MCP repository.

The tool server (src/mcp_server.py and the server half of
src/mcp_chatbot_with_sources_and_prompts.py) keeps one JSON document
`papers_info.json` per normalized topic directory under "papers".  The
filesystem is embedded as an optional association list from topic-directory
name to the state of that directory's document; the external arXiv search,
the LLM API and the MCP transport are outside the repository and enter the
model as explicit inputs (result lists and oracle functions).  Python dicts
are embedded as insertion-ordered association lists with update-in-place
assignment, exactly the observable behaviour of dict writes and reads.
-/

/-- Paper metadata stored for one paper id: the fields written by
search_papers in src/mcp_server.py lines 64-70 (title, authors, summary,
pdf_url, published). -/
structure PaperInfo where
  title : String
  authors : List String
  summary : String
  pdf_url : String
  published : String
deriving DecidableEq

/-- State of one topic directory's papers_info.json: the file may be absent
(open raises FileNotFoundError, os.path.isfile is false), present but not
parseable as JSON (json.load raises json.JSONDecodeError), or a valid JSON
object mapping paper id to PaperInfo. -/
inductive DocState where
  | absent
  | corrupt
  | valid (entries : List (String × PaperInfo))
deriving DecidableEq

/-- The "papers" directory: `none` when the directory itself does not exist,
otherwise the topic subdirectories in os.listdir order, each with the state
of its papers_info.json document. -/
abbrev PapersFS := Option (List (String × DocState))

/-- Python dict read `d[k]` / `d.get(k)`: first entry with the given key. -/
def dictGet {α : Type} (d : List (String × α)) (k : String) : Option α :=
  match d with
  | [] => none
  | (k0, v) :: rest => if k0 = k then some v else dictGet rest k

/-- Python membership test `k in d`. -/
def dictHasKey {α : Type} (d : List (String × α)) (k : String) : Bool :=
  match d with
  | [] => false
  | (k0, _) :: rest => if k0 = k then true else dictHasKey rest k

/-- Python dict assignment `d[k] = v`: update in place when the key exists,
append otherwise (insertion order preserved). -/
def dictUpsert {α : Type} (d : List (String × α)) (k : String) (v : α) :
    List (String × α) :=
  if dictHasKey d k then d.map (fun p => if p.1 = k then (k, v) else p)
  else d ++ [(k, v)]

/-- The key sequence of a dict. -/
def dictKeys {α : Type} (d : List (String × α)) : List String :=
  d.map Prod.fst

/-- The for-loop `for (k, v) in r: d[k] = v`. -/
def dictInsertAll {α : Type} (d r : List (String × α)) : List (String × α) :=
  r.foldl (fun acc p => dictUpsert acc p.1 p.2) d

/-- Python exceptions that the embedded code can raise or catch. -/
inductive PyExc where
  | keyError (key : String)
  | jsonDecodeError (msg : String)
  | fileNotFoundError (path : String)
deriving DecidableEq

/-- str.lower(): character-wise lower casing. -/
def pyLower (s : String) : String :=
  String.mk (s.data.map Char.toLower)

/-- str.replace(a, b) for single characters. -/
def pyReplaceChar (s : String) (a b : Char) : String :=
  String.mk (s.data.map (fun c => if c = a then b else c))

/-- topic.lower().replace(" ", "_"): the topic-directory name
(src/mcp_server.py line 48). -/
def normalizeTopic (t : String) : String :=
  pyReplaceChar (pyLower t) ' ' '_'

/-- item.replace("_", " "): the display name recovered from a directory name
(src/mcp_server.py line 139). -/
def denormalizeTopic (d : String) : String :=
  pyReplaceChar d '_' ' '

/-- The document contents seen after the try/except around open + json.load
in search_papers: a missing or corrupt file is read as the empty dict. -/
def loadDoc : DocState → List (String × PaperInfo)
  | DocState.valid m => m
  | _ => []

/-- The document state of a topic directory (absent when either the papers
directory or the topic directory is missing). -/
def fsGetDoc (fs : PapersFS) (dir : String) : DocState :=
  match fs with
  | none => DocState.absent
  | some dirs => (dictGet dirs dir).getD DocState.absent

/-- os.makedirs(path, exist_ok=True) followed by writing papers_info.json:
the topic directory now exists and holds the given document. -/
def fsSetDoc (fs : PapersFS) (dir : String) (st : DocState) : PapersFS :=
  match fs with
  | none => some (dictUpsert [] dir st)
  | some dirs => some (dictUpsert dirs dir st)

/-- os.path.isdir for a topic directory of the papers directory. -/
def fsHasDir (fs : PapersFS) (dir : String) : Bool :=
  match fs with
  | none => false
  | some dirs => dictHasKey dirs dir

/-- os.path.isfile for a topic directory's papers_info.json. -/
def fsDocPresent (fs : PapersFS) (dir : String) : Bool :=
  match fs with
  | none => false
  | some dirs =>
    match dictGet dirs dir with
    | some DocState.absent => false
    | some _ => true
    | none => false

/-- search_papers from src/mcp_server.py lines 18-82.  The arXiv client is
external, so the relevance-ordered result list enters as the `results`
argument, each paper already reduced to (short id, stored fields).  With no
results the function returns [] before touching the filesystem (lines
44-46); otherwise it creates the topic directory, reads the existing
document (missing or corrupt read as empty), upserts every result by paper
id in order, rewrites the whole document, and returns only this call's
ids. -/
def search_papers (fs : PapersFS) (topic : String)
    (results : List (String × PaperInfo)) : PapersFS × List String :=
  if results.isEmpty then (fs, [])
  else
    (fsSetDoc fs (normalizeTopic topic)
      (DocState.valid
        (dictInsertAll (loadDoc (fsGetDoc fs (normalizeTopic topic))) results)),
     results.map Prod.fst)

/-- search_papers from src/mcp_chatbot_with_sources_and_prompts.py lines
17-73: same merge, but the directory is created and the document rewritten
unconditionally, even when the search returned no results. -/
def search_papers_ws (fs : PapersFS) (topic : String)
    (results : List (String × PaperInfo)) : PapersFS × List String :=
  (fsSetDoc fs (normalizeTopic topic)
    (DocState.valid
      (dictInsertAll (loadDoc (fsGetDoc fs (normalizeTopic topic))) results)),
   results.map Prod.fst)

/-- The linear scan of extract_info over the topic directories in listing
order: a directory whose document is absent or corrupt is skipped (the
per-file try/except), the first document containing the id wins. -/
def extract_scan (dirs : List (String × DocState)) (paper_id : String) :
    Option PaperInfo :=
  match dirs with
  | [] => none
  | (_, st) :: rest =>
    match st with
    | DocState.valid m =>
      match dictGet m paper_id with
      | some info => some info
      | none => extract_scan rest paper_id
    | _ => extract_scan rest paper_id

/-- Whether one document contains the paper id. -/
def docHasId : DocState → String → Bool
  | DocState.valid m, pid => dictHasKey m pid
  | _, _ => false

/-- Whether any parseable topic document contains the paper id. -/
def idInSomeDoc (fs : PapersFS) (pid : String) : Bool :=
  match fs with
  | none => false
  | some dirs => dirs.any (fun p => docHasId p.2 pid)

/-- Hex digit character (lower case), as used by json.dumps escapes. -/
def hexDigitChar (n : Nat) : Char :=
  if n < 10 then Char.ofNat (48 + n) else Char.ofNat (87 + n)

/-- Four-digit lower-case hex rendering of a code point. -/
def hex4 (n : Nat) : String :=
  String.mk [hexDigitChar (n / 4096 % 16), hexDigitChar (n / 256 % 16),
             hexDigitChar (n / 16 % 16), hexDigitChar (n % 16)]

/-- json.dumps escaping of one character (default ensure_ascii=True). -/
def jsonEscapeChar (c : Char) : String :=
  if c = '"' then "\\\""
  else if c = '\\' then "\\\\"
  else if c = '\n' then "\\n"
  else if c = '\r' then "\\r"
  else if c = '\t' then "\\t"
  else if c.toNat = 8 then "\\b"
  else if c.toNat = 12 then "\\f"
  else if c.toNat < 32 then "\\u" ++ hex4 c.toNat
  else if c.toNat < 128 then String.mk [c]
  else if c.toNat < 65536 then "\\u" ++ hex4 c.toNat
  else
    "\\u" ++ hex4 (55296 + (c.toNat - 65536) / 1024) ++
    "\\u" ++ hex4 (56320 + (c.toNat - 65536) % 1024)

/-- A JSON string literal as json.dumps renders it. -/
def jsonQuote (s : String) : String :=
  "\"" ++ String.join (s.data.map jsonEscapeChar) ++ "\""

/-- The authors list as json.dumps(..., indent=2) renders a list nested at
depth one. -/
def jsonAuthorsArray (authors : List String) : String :=
  match authors with
  | [] => "[]"
  | _ =>
    "[\n" ++ String.intercalate ",\n" (authors.map (fun a => "    " ++ jsonQuote a)) ++
    "\n  ]"

/-- json.dumps(papers_info[paper_id], indent=2) for the found branch of
extract_info: the five fields in insertion order, 2-space indented. -/
def jsonDumpsPaperInfo (info : PaperInfo) : String :=
  "\x7b\n  \"title\": " ++ jsonQuote info.title ++
  ",\n  \"authors\": " ++ jsonAuthorsArray info.authors ++
  ",\n  \"summary\": " ++ jsonQuote info.summary ++
  ",\n  \"pdf_url\": " ++ jsonQuote info.pdf_url ++
  ",\n  \"published\": " ++ jsonQuote info.published ++
  "\n\x7d"

/-- The fixed not-found string of extract_info (src/mcp_server.py line 117). -/
def notFoundMsg (paper_id : String) : String :=
  "There\x27s no saved information related to paper " ++ paper_id ++ "."

/-- The message extract_info returns when the papers directory is missing
(src/mcp_server.py line 99). -/
def dirMissingMsg : String :=
  "Papers directory \x27papers\x27 does not exist."

/-- extract_info from src/mcp_server.py lines 85-121.  A missing papers
directory returns a dedicated message (not the not-found string); otherwise
the scan over topic directories returns the found record serialized, or the
fixed not-found string.  Every exception along the way is caught, so the
result is always ok. -/
def extract_info (fs : PapersFS) (paper_id : String) : Except PyExc String :=
  match fs with
  | none => Except.ok dirMissingMsg
  | some dirs =>
    match extract_scan dirs paper_id with
    | some info => Except.ok (jsonDumpsPaperInfo info)
    | none => Except.ok (notFoundMsg paper_id)

/-- extract_info from src/mcp_chatbot_with_sources_and_prompts.py lines
76-101: identical scan, but os.listdir(PAPER_DIR) is called without an
existence check, so a missing papers directory raises FileNotFoundError. -/
def extract_info_ws (fs : PapersFS) (paper_id : String) : Except PyExc String :=
  match fs with
  | none => Except.error (PyExc.fileNotFoundError "papers")
  | some dirs =>
    match extract_scan dirs paper_id with
    | some info => Except.ok (jsonDumpsPaperInfo info)
    | none => Except.ok (notFoundMsg paper_id)

/-- list_topics from src/mcp_server.py lines 124-146: every topic directory
name with underscores turned back into spaces; empty when the papers
directory is missing. -/
def list_topics (fs : PapersFS) : List String :=
  match fs with
  | none => []
  | some dirs => dirs.map (fun p => denormalizeTopic p.1)

/-- A value of the dict returned by get_paper_count: a paper count or the
error message under the "error" key. -/
inductive CountVal where
  | count (n : Nat)
  | errMsg (s : String)
deriving DecidableEq

/-- Whether the document file is present on disk (os.path.isfile is true). -/
def docPresentB : DocState → Bool
  | DocState.absent => false
  | _ => true

/-- len(papers_info) after the try/except of get_paper_count: entry count of
a valid document, 0 for a corrupt one. -/
def docLen : DocState → Nat
  | DocState.valid m => m.length
  | _ => 0

/-- The all-topics branch of get_paper_count (src/mcp_server.py lines
183-193): a for-loop over topic directories writing counts[display name]
for every directory whose document file is present. -/
def allCounts (dirs : List (String × DocState)) : List (String × CountVal) :=
  List.foldl (fun counts p =>
    match p.2 with
    | DocState.valid m => dictUpsert counts (denormalizeTopic p.1) (CountVal.count m.length)
    | DocState.corrupt => dictUpsert counts (denormalizeTopic p.1) (CountVal.count 0)
    | DocState.absent => counts) [] dirs

/-- Declarative rendering of the all-topics count mapping, written from the
specification's words for comparison with allCounts: one entry per topic
directory whose document is present, keyed by display name. -/
def allCountsSpec (dirs : List (String × DocState)) : List (String × CountVal) :=
  (dirs.filter (fun p => docPresentB p.2)).map
    (fun p => (denormalizeTopic p.1, CountVal.count (docLen p.2)))

/-- Python truthiness of the optional topic argument: None and the empty
string are falsy. -/
def pyTruthyOptStr : Option String → Bool
  | none => false
  | some s => decide (s ≠ "")

/-- get_paper_count from src/mcp_server.py lines 149-200.  Missing papers
directory: an {"error": ...} mapping.  Truthy topic argument: the directory
existence and file checks of lines 170-180 (note that an existing topic
directory with no document file adds no entry at all).  Otherwise the
all-topics loop. -/
def get_paper_count (fs : PapersFS) (topic : Option String) :
    List (String × CountVal) :=
  match fs with
  | none => [("error", CountVal.errMsg "Papers directory does not exist")]
  | some dirs =>
    if pyTruthyOptStr topic then
      if dictHasKey dirs (normalizeTopic (topic.getD "")) then
        if docPresentB ((dictGet dirs (normalizeTopic (topic.getD ""))).getD DocState.absent) then
          match dictGet dirs (normalizeTopic (topic.getD "")) with
          | some (DocState.valid m) =>
            dictUpsert [] (topic.getD "") (CountVal.count m.length)
          | _ => dictUpsert [] (topic.getD "") (CountVal.count 0)
        else []
      else dictUpsert [] (topic.getD "") (CountVal.count 0)
    else allCounts dirs

/-- Key sequence of the document stored for a topic (through the same
missing/corrupt-as-empty read used by search_papers). -/
def docKeys (fs : PapersFS) (topic : String) : List String :=
  dictKeys (loadDoc (fsGetDoc fs (normalizeTopic topic)))

/-- Entry lookup in the document stored for a topic. -/
def docGet (fs : PapersFS) (topic : String) (k : String) : Option PaperInfo :=
  dictGet (loadDoc (fsGetDoc fs (normalizeTopic topic))) k

/-- JSON values as json.loads returns them; numbers keep their lexeme, which
is enough here since no claim inspects numeric values. -/
inductive Json where
  | null
  | bool (b : Bool)
  | num (lexeme : String)
  | str (s : String)
  | arr (elems : List Json)
  | obj (fields : List (String × Json))

/-- JSON insignificant whitespace. -/
def isJsonWs (c : Char) : Bool :=
  c = ' ' || c = '\t' || c = '\n' || c = '\r'

/-- Drop leading JSON whitespace. -/
def skipWs : List Char → List Char
  | [] => []
  | c :: rest => if isJsonWs c then skipWs rest else c :: rest

/-- Single-character JSON string escapes. -/
def escChar (e : Char) : Option Char :=
  if e = '"' then some '"'
  else if e = '\\' then some '\\'
  else if e = '/' then some '/'
  else if e = 'b' then some (Char.ofNat 8)
  else if e = 'f' then some (Char.ofNat 12)
  else if e = 'n' then some '\n'
  else if e = 'r' then some '\r'
  else if e = 't' then some '\t'
  else none

/-- Hex digit test for \uXXXX escapes. -/
def isHexDigitChar (c : Char) : Bool :=
  c.isDigit || ('a' ≤ c && c ≤ 'f') || ('A' ≤ c && c ≤ 'F')

/-- Value of one hex digit. -/
def hexVal (c : Char) : Nat :=
  if c.isDigit then c.toNat - 48
  else if 'a' ≤ c && c ≤ 'f' then c.toNat - 87
  else c.toNat - 55

/-- Read exactly four hex digits of a \uXXXX escape. -/
def parseHex4 (cs : List Char) : Option (Nat × List Char) :=
  match cs with
  | a :: b :: c :: d :: rest =>
    if isHexDigitChar a && isHexDigitChar b && isHexDigitChar c && isHexDigitChar d then
      some ((((hexVal a * 16 + hexVal b) * 16 + hexVal c) * 16 + hexVal d), rest)
    else none
  | _ => none

/-- Body of a JSON string after the opening quote; fuel bounds the length. -/
def parseStringBody : Nat → List Char → Except String (String × List Char)
  | 0, _ => Except.error "Unterminated string"
  | Nat.succ fuel, cs =>
    match cs with
    | [] => Except.error "Unterminated string"
    | c :: rest =>
      if c = '"' then Except.ok ("", rest)
      else if c = '\\' then
        match rest with
        | [] => Except.error "Unterminated string"
        | e :: rest2 =>
          match escChar e with
          | some ch =>
            match parseStringBody fuel rest2 with
            | Except.ok (s, r) => Except.ok (String.mk (ch :: s.data), r)
            | Except.error m => Except.error m
          | none =>
            if e = 'u' then
              match parseHex4 rest2 with
              | some (n, rest3) =>
                match parseStringBody fuel rest3 with
                | Except.ok (s, r) => Except.ok (String.mk (Char.ofNat n :: s.data), r)
                | Except.error m => Except.error m
              | none => Except.error "Invalid \\uXXXX escape"
            else Except.error "Invalid \\escape"
      else if c.toNat < 32 then Except.error "Invalid control character"
      else
        match parseStringBody fuel rest with
        | Except.ok (s, r) => Except.ok (String.mk (c :: s.data), r)
        | Except.error m => Except.error m

/-- Longest digit run at the head of the input. -/
def takeDigits : List Char → List Char × List Char
  | [] => ([], [])
  | c :: rest =>
    if c.isDigit then
      match takeDigits rest with
      | (ds, r) => (c :: ds, r)
    else ([], c :: rest)

/-- The integer digits of a JSON number: a leading zero stands alone. -/
def takeIntDigits (cs : List Char) : List Char × List Char :=
  match cs with
  | '0' :: rest => (['0'], rest)
  | _ => takeDigits cs

/-- Optional exponent part of a JSON number. -/
def parseExp (cs : List Char) : List Char × List Char :=
  match cs with
  | e :: rest =>
    if e = 'e' || e = 'E' then
      match rest with
      | s :: rest2 =>
        if s = '+' || s = '-' then
          match takeDigits rest2 with
          | ([], _) => ([], cs)
          | (ds, r) => (e :: s :: ds, r)
        else
          match takeDigits rest with
          | ([], _) => ([], cs)
          | (ds, r) => (e :: ds, r)
      | [] => ([], cs)
    else ([], cs)
  | [] => ([], cs)

/-- Optional fraction and exponent parts of a JSON number (empty on no
match, leaving the input unconsumed in that case). -/
def parseFrac (cs : List Char) : List Char × List Char :=
  match cs with
  | '.' :: rest =>
    match takeDigits rest with
    | ([], _) => ([], cs)
    | (ds, r) =>
      match parseExp r with
      | (es, r2) => ('.' :: ds ++ es, r2)
  | _ => parseExp cs

/-- A JSON number starting at the input (which begins with a minus sign or a
digit); returns its lexeme. -/
def parseNumber (cs : List Char) : Except String (Json × List Char) :=
  match cs with
  | '-' :: rest =>
    match takeIntDigits rest with
    | ([], _) => Except.error "Expecting value"
    | (ds, r) =>
      match parseFrac r with
      | (fs, r2) => Except.ok (Json.num (String.mk ('-' :: (ds ++ fs))), r2)
  | _ =>
    match takeIntDigits cs with
    | ([], _) => Except.error "Expecting value"
    | (ds, r) =>
      match parseFrac r with
      | (fs, r2) => Except.ok (Json.num (String.mk (ds ++ fs)), r2)

/-- Parsing mode of the single-function JSON parser: one value, the members
of an object after its opening brace, or the elements of an array after its
opening bracket. -/
inductive PMode where
  | value
  | members
  | elems

/-- Intermediate parser result, tagged by mode. -/
inductive PTmp where
  | v (j : Json)
  | fields (l : List (String × Json))
  | items (l : List Json)

/-- Recursive-descent JSON parser, a single function structurally recursive
on fuel so that it evaluates inside the kernel; the mode argument folds the
mutually recursive value/members/elements productions into one function.
Error messages follow json.JSONDecodeError's phrasing without the
line/column suffix. -/
def parseJson : Nat → PMode → List Char → Except String (PTmp × List Char)
  | 0, _, _ => Except.error "Expecting value"
  | Nat.succ fuel, PMode.value, cs =>
    match skipWs cs with
    | [] => Except.error "Expecting value"
    | c :: rest =>
      if c = '"' then
        match parseStringBody (rest.length + 1) rest with
        | Except.ok (s, r) => Except.ok (PTmp.v (Json.str s), r)
        | Except.error m => Except.error m
      else if c = '\x7b' then
        match skipWs rest with
        | '\x7d' :: r2 => Except.ok (PTmp.v (Json.obj []), r2)
        | r2 =>
          match parseJson fuel PMode.members r2 with
          | Except.ok (PTmp.fields fs, r3) => Except.ok (PTmp.v (Json.obj fs), r3)
          | Except.ok _ => Except.error "Expecting value"
          | Except.error m => Except.error m
      else if c = '[' then
        match skipWs rest with
        | ']' :: r2 => Except.ok (PTmp.v (Json.arr []), r2)
        | r2 =>
          match parseJson fuel PMode.elems r2 with
          | Except.ok (PTmp.items vs, r3) => Except.ok (PTmp.v (Json.arr vs), r3)
          | Except.ok _ => Except.error "Expecting value"
          | Except.error m => Except.error m
      else if c = 't' then
        match rest with
        | 'r' :: 'u' :: 'e' :: r2 => Except.ok (PTmp.v (Json.bool true), r2)
        | _ => Except.error "Expecting value"
      else if c = 'f' then
        match rest with
        | 'a' :: 'l' :: 's' :: 'e' :: r2 => Except.ok (PTmp.v (Json.bool false), r2)
        | _ => Except.error "Expecting value"
      else if c = 'n' then
        match rest with
        | 'u' :: 'l' :: 'l' :: r2 => Except.ok (PTmp.v Json.null, r2)
        | _ => Except.error "Expecting value"
      else if c = '-' || c.isDigit then
        match parseNumber (c :: rest) with
        | Except.ok (j, r2) => Except.ok (PTmp.v j, r2)
        | Except.error m => Except.error m
      else Except.error "Expecting value"
  | Nat.succ fuel, PMode.members, cs =>
    match cs with
    | '"' :: rest =>
      match parseStringBody (rest.length + 1) rest with
      | Except.error m => Except.error m
      | Except.ok (key, r2) =>
        match skipWs r2 with
        | ':' :: r3 =>
          match parseJson fuel PMode.value r3 with
          | Except.error m => Except.error m
          | Except.ok (PTmp.v v, r4) =>
            match skipWs r4 with
            | ',' :: r5 =>
              match parseJson fuel PMode.members (skipWs r5) with
              | Except.ok (PTmp.fields fs, r6) => Except.ok (PTmp.fields ((key, v) :: fs), r6)
              | Except.ok _ => Except.error "Expecting value"
              | Except.error m => Except.error m
            | '\x7d' :: r5 => Except.ok (PTmp.fields [(key, v)], r5)
            | _ => Except.error "Expecting delimiter"
          | Except.ok _ => Except.error "Expecting value"
        | _ => Except.error "Expecting colon delimiter"
    | _ => Except.error "Expecting property name enclosed in double quotes"
  | Nat.succ fuel, PMode.elems, cs =>
    match parseJson fuel PMode.value cs with
    | Except.error m => Except.error m
    | Except.ok (PTmp.v v, r) =>
      match skipWs r with
      | ',' :: r2 =>
        match parseJson fuel PMode.elems (skipWs r2) with
        | Except.ok (PTmp.items vs, r3) => Except.ok (PTmp.items (v :: vs), r3)
        | Except.ok _ => Except.error "Expecting value"
        | Except.error m => Except.error m
      | ']' :: r2 => Except.ok (PTmp.items [v], r2)
      | _ => Except.error "Expecting delimiter"
    | Except.ok _ => Except.error "Expecting value"

/-- json.loads: parse one JSON value and require only whitespace after it.
All failures are json.JSONDecodeError; the message is the error text. -/
def pyJsonLoads (s : String) : Except String Json :=
  match parseJson (s.data.length + 1) PMode.value s.data with
  | Except.error m => Except.error m
  | Except.ok (PTmp.v v, rest) =>
    match skipWs rest with
    | [] => Except.ok v
    | _ => Except.error "Extra data"
  | Except.ok _ => Except.error "Expecting value"

/-- One tool descriptor as listed by a backend: the name, description and
input schema that connect_to_server copies into the catalog entry
(src/mcp_chatbot.py lines 49-56); the schema is kept as its JSON text. -/
structure ToolSpec where
  name : String
  description : String
  inputSchema : String
deriving DecidableEq

/-- The registry state of MCP_ChatBot (src/mcp_chatbot.py lines 19-25):
sessions are identified by number, available_tools is the flattened catalog
in append order, tool_to_session the dict from tool name to owning
session. -/
structure ChatBotState where
  sessions : List Nat
  available_tools : List ToolSpec
  tool_to_session : List (String × Nat)
deriving DecidableEq

/-- The tool-registration loop of connect_to_server (src/mcp_chatbot.py
lines 47-56): for each listed tool, assign tool_to_session[name] = session
and append the descriptor to available_tools. -/
def register_tools (st : ChatBotState) (session : Nat) (tools : List ToolSpec) :
    ChatBotState :=
  tools.foldl (fun acc tool =>
    { acc with
      tool_to_session := dictUpsert acc.tool_to_session tool.name session,
      available_tools := acc.available_tools ++ [tool] }) st

/-- connect_to_server (src/mcp_chatbot.py lines 28-58) after a successful
handshake: the session is appended and its tools registered.  The listed
tools are the backend's response to list_tools, passed in as input. -/
def connect_to_server (st : ChatBotState) (session : Nat)
    (tools : List ToolSpec) : ChatBotState :=
  register_tools { st with sessions := st.sessions ++ [session] } session tools

/-- One tool-call request from an assistant message: call id, tool name and
the raw JSON argument payload. -/
structure ToolCall where
  id : String
  name : String
  arguments : String
deriving DecidableEq

/-- An assistant message as returned by the chat completion API: optional
text content (None modelled as none) and a possibly empty tool-call list
(None and [] are both falsy and both modelled as []). -/
structure AssistantMsg where
  content : Option String
  tool_calls : List ToolCall
deriving DecidableEq

/-- A transcript message. -/
inductive Message where
  | system (content : String)
  | user (content : String)
  | assistant (content : Option String) (tool_calls : List ToolCall)
  | tool (tool_call_id : String) (content : String)
deriving DecidableEq

/-- Python truthiness of assistant content: None and "" are falsy. -/
def pyTruthyStr : Option String → Bool
  | none => false
  | some s => decide (s ≠ "")

/-- The guarded argument parse of process_query (src/mcp_chatbot.py lines
141-145): json.loads, with JSONDecodeError replaced by the empty dict. -/
def parsedArgs (s : String) : Json :=
  match pyJsonLoads s with
  | Except.ok d => d
  | Except.error _ => Json.obj []

/-- The per-response tool-call loop of process_query (src/mcp_chatbot.py
lines 133-154): parse arguments (parse failure swallowed), look the name up
in tool_to_session (a missing key raises KeyError, carrying the transcript
reached so far), call the tool through the owning session (external, the
callTool oracle yields the formatted result string), append the tool
message. -/
def execToolCalls (callTool : String → Json → String)
    (index : List (String × Nat)) (messages : List Message) :
    List ToolCall → Except (PyExc × List Message) (List Message)
  | [] => Except.ok messages
  | tc :: rest =>
    match dictGet index tc.name with
    | none => Except.error (PyExc.keyError tc.name, messages)
    | some _ =>
      execToolCalls callTool index
        (messages ++ [Message.tool tc.id (callTool tc.name (parsedArgs tc.arguments))])
        rest

/-- The same loop in src/mcp_client.py lines 46-66: no dispatch index, every
call goes through the single session, so nothing raises. -/
def execToolCallsClient (callTool : String → Json → String)
    (messages : List Message) : List ToolCall → List Message
  | [] => messages
  | tc :: rest =>
    execToolCallsClient callTool
      (messages ++ [Message.tool tc.id (callTool tc.name (parsedArgs tc.arguments))])
      rest

/-- State carried around the while-loop of process_query: the transcript,
the response under examination, and how many follow-up LLM calls were made
(indexing the llm oracle). -/
structure LoopState where
  messages : List Message
  response : AssistantMsg
  llmCalls : Nat
deriving DecidableEq

/-- Outcome of one iteration of the while-loop: continue with a new state,
leave the loop, or propagate an exception (with the transcript at that
point). -/
inductive StepResult where
  | next (st : LoopState)
  | done (st : LoopState)
  | raised (e : PyExc) (messages : List Message)
deriving DecidableEq

/-- The transcript after the content branch of the loop body
(src/mcp_chatbot.py lines 122-124): truthy content is appended as a plain
assistant message. -/
def stepMsgs1 (st : LoopState) : List Message :=
  if pyTruthyStr st.response.content then
    st.messages ++ [Message.assistant st.response.content []]
  else st.messages

/-- One iteration of the while-loop of process_query (src/mcp_chatbot.py
lines 118-165).  Truthy content with no tool calls ends the loop; falsy
content with no tool calls leaves every variable untouched and iterates
again; otherwise the assistant message with its tool calls is appended, the
calls are executed (KeyError propagates), a new response is obtained from
the llm oracle, and the loop ends if it carries no tool calls. -/
def step (llm : Nat → AssistantMsg) (callTool : String → Json → String)
    (index : List (String × Nat)) (st : LoopState) : StepResult :=
  if pyTruthyStr st.response.content && st.response.tool_calls.isEmpty then
    StepResult.done { st with messages := stepMsgs1 st }
  else if st.response.tool_calls.isEmpty then
    StepResult.next { st with messages := stepMsgs1 st }
  else
    match execToolCalls callTool index
        (stepMsgs1 st ++ [Message.assistant st.response.content st.response.tool_calls])
        st.response.tool_calls with
    | Except.error (e, msgsE) => StepResult.raised e msgsE
    | Except.ok msgs3 =>
      if (llm st.llmCalls).tool_calls.isEmpty then
        StepResult.done ⟨msgs3, llm st.llmCalls, st.llmCalls + 1⟩
      else
        StepResult.next ⟨msgs3, llm st.llmCalls, st.llmCalls + 1⟩

/-- One iteration of the identically structured while-loop of
src/mcp_client.py lines 31-77 (no dispatch index, so no KeyError). -/
def stepClient (llm : Nat → AssistantMsg) (callTool : String → Json → String)
    (st : LoopState) : StepResult :=
  if pyTruthyStr st.response.content && st.response.tool_calls.isEmpty then
    StepResult.done { st with messages := stepMsgs1 st }
  else if st.response.tool_calls.isEmpty then
    StepResult.next { st with messages := stepMsgs1 st }
  else
    if (llm st.llmCalls).tool_calls.isEmpty then
      StepResult.done
        ⟨execToolCallsClient callTool
           (stepMsgs1 st ++ [Message.assistant st.response.content st.response.tool_calls])
           st.response.tool_calls,
         llm st.llmCalls, st.llmCalls + 1⟩
    else
      StepResult.next
        ⟨execToolCallsClient callTool
           (stepMsgs1 st ++ [Message.assistant st.response.content st.response.tool_calls])
           st.response.tool_calls,
         llm st.llmCalls, st.llmCalls + 1⟩

/-- Run the process_query while-loop for at most `fuel` iterations: none
when it is still running after that many, otherwise its outcome. -/
def runLoop (llm : Nat → AssistantMsg) (callTool : String → Json → String)
    (index : List (String × Nat)) :
    Nat → LoopState → Option (Except (PyExc × List Message) LoopState)
  | 0, _ => none
  | Nat.succ fuel, st =>
    match step llm callTool index st with
    | StepResult.done st2 => some (Except.ok st2)
    | StepResult.raised e msgs => some (Except.error (e, msgs))
    | StepResult.next st2 => runLoop llm callTool index fuel st2

/-- Run the mcp_client.py while-loop for at most `fuel` iterations. -/
def runLoopClient (llm : Nat → AssistantMsg) (callTool : String → Json → String) :
    Nat → LoopState → Option (Except (PyExc × List Message) LoopState)
  | 0, _ => none
  | Nat.succ fuel, st =>
    match stepClient llm callTool st with
    | StepResult.done st2 => some (Except.ok st2)
    | StepResult.raised e msgs => some (Except.error (e, msgs))
    | StepResult.next st2 => runLoopClient llm callTool fuel st2

/-- call_tool from src/mcp_chatbot_with_sources_and_prompts.py lines
344-356: an if/elif chain over the four known tool names, whose bodies call
the in-process tool functions on the unpacked keyword arguments (entering
here as the invoke oracle); any other name falls to the else branch and
returns a fixed string instead of raising. -/
def call_tool (invoke : String → Json → String) (tool_name : String)
    (arguments : Json) : String :=
  if tool_name = "search_papers" then invoke tool_name arguments
  else if tool_name = "extract_info" then invoke tool_name arguments
  else if tool_name = "list_topics" then invoke tool_name arguments
  else if tool_name = "get_paper_count" then invoke tool_name arguments
  else "Unknown tool: " ++ tool_name

/-- The per-response tool-call loop of chat_with_gpt
(src/mcp_chatbot_with_sources_and_prompts.py lines 392-407): json.loads is
NOT guarded here, so a parse failure propagates (carrying the messages
reached, with no tool message appended for the failing call); on success
call_tool runs and its stringified result is appended. -/
def execToolCallsWS (invoke : String → Json → String) (messages : List Message) :
    List ToolCall → Except (String × List Message) (List Message)
  | [] => Except.ok messages
  | tc :: rest =>
    match pyJsonLoads tc.arguments with
    | Except.error m => Except.error (m, messages)
    | Except.ok args =>
      execToolCallsWS invoke
        (messages ++ [Message.tool tc.id (call_tool invoke tc.name args)]) rest

/-- The while-loop of chat_with_gpt (lines 392-418) together with the
enclosing try/except (lines 379-423): iterate while the assistant message
carries tool calls; any exception - in particular the unguarded json.loads
failure - is caught at query level and turned into the apology string, so
the query aborts.  Termination returns the final assistant content (which
may be None). -/
def chatLoopWS (llm : Nat → AssistantMsg) (invoke : String → Json → String) :
    Nat → Nat → List Message → AssistantMsg → Option (Option String)
  | 0, _, _, _ => none
  | Nat.succ fuel, k, messages, am =>
    if am.tool_calls.isEmpty then some am.content
    else
      match execToolCallsWS invoke messages am.tool_calls with
      | Except.error (m, _) =>
        some (some ("Sorry, I encountered an error: " ++ m))
      | Except.ok msgs2 =>
        chatLoopWS llm invoke fuel (k + 1)
          (msgs2 ++ [Message.assistant (llm k).content (llm k).tool_calls]) (llm k)

/-- Concrete paper record used by witnesses. -/
def infoA : PaperInfo :=
  ⟨"Paper A", ["Alice"], "summary a", "http://arxiv.org/pdf/a", "2024-01-01"⟩

/-- Second concrete paper record (an updated version of the same id). -/
def infoB : PaperInfo :=
  ⟨"Paper A v2", ["Alice", "Bob"], "summary a2", "http://arxiv.org/pdf/a2", "2024-02-02"⟩

/-- Third concrete paper record. -/
def infoC : PaperInfo :=
  ⟨"Paper C", ["Carol"], "summary c", "http://arxiv.org/pdf/c", "2024-03-03"⟩

/-- A tool named "fetch" as exposed by a first backend. -/
def fetchA : ToolSpec := ⟨"fetch", "fetch from backend A", "schemaA"⟩

/-- A tool named "fetch" as exposed by a second backend. -/
def fetchB : ToolSpec := ⟨"fetch", "fetch from backend B", "schemaB"⟩

/-- The freshly constructed MCP_ChatBot state: no sessions, empty catalog,
empty dispatch index. -/
def chatbotInit : ChatBotState := ⟨[], [], []⟩

/-- A constant LLM oracle: the follow-up response carries text and no tool
calls. -/
def llm0 : Nat → AssistantMsg := fun _ => ⟨some "done", []⟩

/-- A concrete stand-in for the external tool transport. -/
def callTool0 : String → Json → String := fun _ _ => "tool result"

/-- A concrete stand-in for the four in-process tool functions of
chat_with_gpt. -/
def invoke0 : String → Json → String := fun n _ => "invoked " ++ n

/-- A dispatch index holding only the research-server tools. -/
def index0 : List (String × Nat) := [("search_papers", 1)]

/-- A tool call whose argument payload is not valid JSON. -/
def tcBad : ToolCall := ⟨"call_1", "search_papers", "\x7binvalid json"⟩

/-- A tool call whose name no backend registered. -/
def tcUnknown : ToolCall := ⟨"call_2", "nonexistent_tool", "\x7b\x7d"⟩

/-- A loop state holding a response with neither content nor tool calls. -/
def stEmptyResp : LoopState := ⟨[], ⟨none, []⟩, 0⟩

theorem dictGet_map_update {α : Type} (d : List (String × α)) (k : String) (v : α)
    (h : dictHasKey d k = true) :
    dictGet (d.map (fun p => if p.1 = k then (k, v) else p)) k = some v := by
  induction d with
  | nil => simp [dictHasKey] at h
  | cons p rest ih =>
    obtain ⟨k0, v0⟩ := p
    by_cases hp : k0 = k
    · subst hp
      simp only [List.map_cons, if_true]
      simp [dictGet]
    · have hr : dictHasKey rest k = true := by simpa [dictHasKey, hp] using h
      simp only [List.map_cons]
      rw [if_neg hp]
      simpa [dictGet, hp] using ih hr

theorem dictGet_append_single {α : Type} (d : List (String × α)) (k : String) (v : α)
    (h : dictHasKey d k = false) :
    dictGet (d ++ [(k, v)]) k = some v := by
  induction d with
  | nil => simp [dictGet]
  | cons p rest ih =>
    obtain ⟨k0, v0⟩ := p
    by_cases hp : k0 = k
    · simp [dictHasKey, hp] at h
    · have hr : dictHasKey rest k = false := by simpa [dictHasKey, hp] using h
      simpa [dictGet, hp] using ih hr

theorem dictGet_upsert_self {α : Type} (d : List (String × α)) (k : String) (v : α) :
    dictGet (dictUpsert d k v) k = some v := by
  by_cases h : dictHasKey d k = true
  · simpa [dictUpsert, h] using dictGet_map_update d k v h
  · have h0 : dictHasKey d k = false := by simpa using h
    simpa [dictUpsert, h0] using dictGet_append_single d k v h0

theorem dictGet_map_update_ne {α : Type} (d : List (String × α)) (k0 k : String) (v : α)
    (h : k0 ≠ k) :
    dictGet (d.map (fun p => if p.1 = k0 then (k0, v) else p)) k = dictGet d k := by
  induction d with
  | nil => simp
  | cons p rest ih =>
    obtain ⟨ka, va⟩ := p
    by_cases hp : ka = k0
    · subst hp
      simp only [List.map_cons, if_true]
      simp [dictGet, h, ih]
    · simp only [List.map_cons]
      rw [if_neg hp]
      simp [dictGet, ih]

theorem dictGet_append_single_ne {α : Type} (d : List (String × α)) (k0 k : String) (v : α)
    (h : k0 ≠ k) :
    dictGet (d ++ [(k0, v)]) k = dictGet d k := by
  induction d with
  | nil => simp [dictGet, h]
  | cons p rest ih =>
    obtain ⟨ka, va⟩ := p
    by_cases hp : ka = k
    · simp [dictGet, hp]
    · simp [dictGet, hp, ih]

theorem dictGet_upsert_ne {α : Type} (d : List (String × α)) (k0 k : String) (v : α)
    (h : k0 ≠ k) :
    dictGet (dictUpsert d k0 v) k = dictGet d k := by
  by_cases hk : dictHasKey d k0 = true
  · simpa [dictUpsert, hk] using dictGet_map_update_ne d k0 k v h
  · have h0 : dictHasKey d k0 = false := by simpa using hk
    simpa [dictUpsert, h0] using dictGet_append_single_ne d k0 k v h

theorem dictHasKey_eq_isSome {α : Type} (d : List (String × α)) (k : String) :
    dictHasKey d k = (dictGet d k).isSome := by
  induction d with
  | nil => rfl
  | cons p rest ih =>
    obtain ⟨ka, va⟩ := p
    by_cases hp : ka = k <;> simp [dictHasKey, dictGet, hp, ih]

theorem dictHasKey_upsert {α : Type} (d : List (String × α)) (k0 : String) (v : α)
    (k : String) :
    dictHasKey (dictUpsert d k0 v) k = (dictHasKey d k || decide (k = k0)) := by
  by_cases hk : k = k0
  · subst hk
    rw [dictHasKey_eq_isSome, dictGet_upsert_self]
    simp
  · rw [dictHasKey_eq_isSome, dictGet_upsert_ne d k0 k v (fun e => hk e.symm),
        ← dictHasKey_eq_isSome]
    simp [hk]

theorem dictUpsert_of_not_hasKey {α : Type} (d : List (String × α)) (k : String) (v : α)
    (h : dictHasKey d k = false) :
    dictUpsert d k v = d ++ [(k, v)] := by
  simp [dictUpsert, h]

theorem dictHasKey_append {α : Type} (a b : List (String × α)) (k : String) :
    dictHasKey (a ++ b) k = (dictHasKey a k || dictHasKey b k) := by
  induction a with
  | nil => simp [dictHasKey]
  | cons p rest ih =>
    obtain ⟨ka, va⟩ := p
    by_cases hp : ka = k <;> simp [dictHasKey, hp, ih]

theorem mem_dictKeys_iff_hasKey {α : Type} (d : List (String × α)) (k : String) :
    k ∈ dictKeys d ↔ dictHasKey d k = true := by
  induction d with
  | nil => simp [dictKeys, dictHasKey]
  | cons p rest ih =>
    obtain ⟨ka, va⟩ := p
    by_cases hp : ka = k
    · simp [dictKeys, dictHasKey, hp]
    · have hp2 : ¬ k = ka := fun e => hp e.symm
      simp [dictKeys, dictHasKey, hp, hp2] at ih ⊢
      exact ih

theorem dictInsertAll_cons {α : Type} (d : List (String × α)) (p : String × α)
    (r : List (String × α)) :
    dictInsertAll d (p :: r) = dictInsertAll (dictUpsert d p.1 p.2) r := rfl

theorem dictHasKey_insertAll {α : Type} (r d : List (String × α)) (k : String) :
    dictHasKey (dictInsertAll d r) k
      = (dictHasKey d k || r.any (fun p => decide (k = p.1))) := by
  induction r generalizing d with
  | nil => simp [dictInsertAll]
  | cons p rest ih =>
    rw [dictInsertAll_cons, ih, dictHasKey_upsert]
    simp [Bool.or_assoc]

theorem dictGet_insertAll_not_mem {α : Type} (r d : List (String × α)) (k : String)
    (h : ∀ p ∈ r, k ≠ p.1) :
    dictGet (dictInsertAll d r) k = dictGet d k := by
  induction r generalizing d with
  | nil => rfl
  | cons p rest ih =>
    have h1 : k ≠ p.1 := h p (List.mem_cons_self p rest)
    have h2 : ∀ q ∈ rest, k ≠ q.1 := fun q hq => h q (List.mem_cons_of_mem p hq)
    rw [dictInsertAll_cons, ih _ h2, dictGet_upsert_ne _ _ _ _ (fun e => h1 e.symm)]

theorem dictGet_insertAll_mem {α : Type} (r : List (String × α)) (d : List (String × α))
    (k : String) (v : α) (hnd : (r.map Prod.fst).Nodup) (hm : (k, v) ∈ r) :
    dictGet (dictInsertAll d r) k = some v := by
  induction r generalizing d with
  | nil => simp at hm
  | cons p rest ih =>
    rcases List.mem_cons.mp hm with he | hr
    · have hk : p.1 = k := by rw [← he]
      have hnotin : ∀ q ∈ rest, k ≠ q.1 := by
        intro q hq he2
        have hhead : p.1 ∉ rest.map Prod.fst := (List.nodup_cons.mp hnd).1
        exact hhead (by
          rw [hk, he2]
          exact List.mem_map_of_mem Prod.fst hq)
      rw [dictInsertAll_cons, dictGet_insertAll_not_mem rest _ k hnotin, ← he]
      exact dictGet_upsert_self d k v
    · exact ih _ (List.nodup_cons.mp hnd).2 hr

theorem fsGetDoc_fsSetDoc (fs : PapersFS) (dir : String) (st : DocState) :
    fsGetDoc (fsSetDoc fs dir st) dir = st := by
  cases fs with
  | none => simp [fsGetDoc, fsSetDoc, dictGet_upsert_self]
  | some dirs => simp [fsGetDoc, fsSetDoc, dictGet_upsert_self]

theorem roundtrip_char_list (l : List Char)
    (h : ∀ c ∈ l, Char.toLower c = c ∧ c ≠ '_') :
    ((l.map Char.toLower).map (fun c => if c = ' ' then '_' else c)).map
        (fun c => if c = '_' then ' ' else c) = l := by
  induction l with
  | nil => rfl
  | cons c rest ih =>
    obtain ⟨h1, h2⟩ := h c (List.mem_cons_self c rest)
    have hr := ih (fun d hd => h d (List.mem_cons_of_mem c hd))
    simp only [List.map_cons, hr, h1]
    by_cases hs : c = ' '
    · simp [hs]
    · simp [hs, h2]

theorem search_papers_snd (fs : PapersFS) (topic : String)
    (r : List (String × PaperInfo)) :
    (search_papers fs topic r).2 = r.map Prod.fst := by
  cases r with
  | nil => simp [search_papers]
  | cons p rest => simp [search_papers]

theorem search_papers_keys (fs : PapersFS) (topic : String)
    (r : List (String × PaperInfo)) (k : String) :
    k ∈ docKeys (search_papers fs topic r).1 topic ↔
      (k ∈ docKeys fs topic ∨ k ∈ r.map Prod.fst) := by
  cases r with
  | nil => simp [search_papers, docKeys]
  | cons p rest =>
    have hsp : (search_papers fs topic (p :: rest)).1
        = fsSetDoc fs (normalizeTopic topic)
            (DocState.valid
              (dictInsertAll (loadDoc (fsGetDoc fs (normalizeTopic topic))) (p :: rest))) := rfl
    simp only [docKeys, hsp, fsGetDoc_fsSetDoc, loadDoc]
    rw [mem_dictKeys_iff_hasKey, dictHasKey_insertAll, mem_dictKeys_iff_hasKey]
    simp only [Bool.or_eq_true, List.any_eq_true, List.mem_map, decide_eq_true_eq]
    constructor
    · rintro (hk | ⟨q, hq, he⟩)
      · exact Or.inl hk
      · exact Or.inr ⟨q, hq, he.symm⟩
    · rintro (hk | ⟨q, hq, he⟩)
      · exact Or.inl hk
      · exact Or.inr ⟨q, hq, he.symm⟩

theorem search_papers_get_mem (fs : PapersFS) (topic : String)
    (r : List (String × PaperInfo)) (k : String) (v : PaperInfo)
    (hnd : (r.map Prod.fst).Nodup) (hm : (k, v) ∈ r) :
    docGet (search_papers fs topic r).1 topic k = some v := by
  cases r with
  | nil => simp at hm
  | cons p rest =>
    have hsp : (search_papers fs topic (p :: rest)).1
        = fsSetDoc fs (normalizeTopic topic)
            (DocState.valid
              (dictInsertAll (loadDoc (fsGetDoc fs (normalizeTopic topic))) (p :: rest))) := rfl
    simp only [docGet, hsp, fsGetDoc_fsSetDoc, loadDoc]
    exact dictGet_insertAll_mem _ _ _ _ hnd hm

/-- Claim C1: for every topic and two successive search_papers calls, the
stored document's key set afterwards is the union of the document's keys
after the first call and the ids of the second call; ids present in the
second call map to the values the second call carried (upsert); and each
call returns exactly its own result ids, not the accumulated set. -/
theorem search_papers_upsert_c1 (fs : PapersFS) (topic : String)
    (r1 r2 : List (String × PaperInfo)) (hnd : (r2.map Prod.fst).Nodup) :
    (search_papers fs topic r1).2 = r1.map Prod.fst ∧
    (search_papers (search_papers fs topic r1).1 topic r2).2 = r2.map Prod.fst ∧
    (∀ k : String,
      k ∈ docKeys (search_papers (search_papers fs topic r1).1 topic r2).1 topic ↔
        (k ∈ docKeys (search_papers fs topic r1).1 topic ∨ k ∈ r2.map Prod.fst)) ∧
    (∀ k v, (k, v) ∈ r2 →
      docGet (search_papers (search_papers fs topic r1).1 topic r2).1 topic k = some v) := by
  exact ⟨search_papers_snd fs topic r1,
    search_papers_snd (search_papers fs topic r1).1 topic r2,
    fun k => search_papers_keys (search_papers fs topic r1).1 topic r2 k,
    fun k v hm => search_papers_get_mem (search_papers fs topic r1).1 topic r2 k v hnd hm⟩

/-- Witness for C1 at a concrete overlapping pair of searches. -/
theorem search_papers_upsert_c1_witness :
    docGet (search_papers (search_papers none "ai" [("2301.00001v1", infoA)]).1 "ai"
        [("2301.00001v1", infoB), ("2302.00002v1", infoC)]).1 "ai" "2301.00001v1"
      = some infoB ∧
    (search_papers (search_papers none "ai" [("2301.00001v1", infoA)]).1 "ai"
        [("2301.00001v1", infoB), ("2302.00002v1", infoC)]).2
      = ["2301.00001v1", "2302.00002v1"] := by
  constructor
  · exact (search_papers_upsert_c1 none "ai" [("2301.00001v1", infoA)]
      [("2301.00001v1", infoB), ("2302.00002v1", infoC)] (by decide)).2.2.2
      "2301.00001v1" infoB (by decide)
  · exact (search_papers_upsert_c1 none "ai" [("2301.00001v1", infoA)]
      [("2301.00001v1", infoB), ("2302.00002v1", infoC)] (by decide)).2.1

/-- Claim C7: the topic "quantum computing" is stored under directory
quantum_computing; after one search on it (on a fresh store) list_topics
returns exactly ["quantum computing"]; and for every topic whose characters
are lower-case-stable and not underscores, the underscore-to-space
denormalization of the directory name recovers the topic string. -/
theorem topic_roundtrip_c7 :
    normalizeTopic "quantum computing" = "quantum_computing" ∧
    (∀ results : List (String × PaperInfo), results ≠ [] →
      fsHasDir (search_papers none "quantum computing" results).1
        "quantum_computing" = true ∧
      list_topics (search_papers none "quantum computing" results).1
        = ["quantum computing"]) ∧
    (∀ t : String, (∀ c ∈ t.data, Char.toLower c = c ∧ c ≠ '_') →
      denormalizeTopic (normalizeTopic t) = t) := by
  refine ⟨by decide, ?_, ?_⟩
  · intro results hne
    cases results with
    | nil => exact absurd rfl hne
    | cons p rest =>
      have hn : normalizeTopic "quantum computing" = "quantum_computing" := by decide
      have hsp : (search_papers none "quantum computing" (p :: rest)).1
          = some [("quantum_computing",
              DocState.valid (dictInsertAll
                (loadDoc (fsGetDoc none (normalizeTopic "quantum computing")))
                (p :: rest)))] := by
        simp [search_papers, fsSetDoc, dictUpsert, dictHasKey, hn]
      rw [hsp]
      constructor
      · simp [fsHasDir, dictHasKey]
      · show [denormalizeTopic "quantum_computing"] = ["quantum computing"]
        decide
  · intro t h
    obtain ⟨l⟩ := t
    exact congrArg String.mk (roundtrip_char_list l h)

/-- Witness for C7 at the concrete scenario. -/
theorem topic_roundtrip_c7_witness :
    fsHasDir (search_papers none "quantum computing" [("2301.00001v1", infoA)]).1
      "quantum_computing" = true ∧
    list_topics (search_papers none "quantum computing" [("2301.00001v1", infoA)]).1
      = ["quantum computing"] ∧
    denormalizeTopic (normalizeTopic "quantum computing") = "quantum computing" := by
  refine ⟨(topic_roundtrip_c7.2.1 [("2301.00001v1", infoA)] (by decide)).1,
          (topic_roundtrip_c7.2.1 [("2301.00001v1", infoA)] (by decide)).2,
          topic_roundtrip_c7.2.2 "quantum computing" (by decide)⟩

theorem extract_scan_eq_none (dirs : List (String × DocState)) (pid : String)
    (h : idInSomeDoc (some dirs) pid = false) :
    extract_scan dirs pid = none := by
  induction dirs with
  | nil => rfl
  | cons p rest ih =>
    have hsplit : docHasId p.2 pid = false ∧ rest.any (fun q => docHasId q.2 pid) = false := by
      have := h
      simp only [idInSomeDoc, List.any_cons, Bool.or_eq_false_iff] at this
      exact this
    have hrest : extract_scan rest pid = none := by
      apply ih
      simp only [idInSomeDoc]
      exact hsplit.2
    obtain ⟨n, st⟩ := p
    cases st with
    | absent => simpa [extract_scan] using hrest
    | corrupt => simpa [extract_scan] using hrest
    | valid m =>
      have hget : dictGet m pid = none := by
        have hk : dictHasKey m pid = false := by simpa [docHasId] using hsplit.1
        rw [dictHasKey_eq_isSome] at hk
        exact Option.not_isSome_iff_eq_none.mp (by simp [hk])
      simp [extract_scan, hget, hrest]

/-- C2 counterexample: with the papers directory absent, extract_info of
src/mcp_server.py returns its directory-missing message, which is not the
fixed not-found string, and the with-sources variant raises
FileNotFoundError instead of returning anything - both against the claim
that the fixed not-found string is returned for every filesystem state. -/
theorem extract_info_c2_counterexample :
    extract_info none "1310.7911v2" = Except.ok dirMissingMsg ∧
    dirMissingMsg ≠ notFoundMsg "1310.7911v2" ∧
    extract_info_ws none "1310.7911v2"
      = Except.error (PyExc.fileNotFoundError "papers") := by
  refine ⟨rfl, by decide, rfl⟩

/-- Claim C2 amended: for a paper id contained in no parseable topic
document, extract_info returns the fixed not-found string and does not
raise whenever the papers directory exists (corrupt or absent documents are
skipped); when the papers directory is absent, src/mcp_server.py returns a
different fixed message (still without raising) and the with-sources
variant raises FileNotFoundError from os.listdir. -/
theorem extract_info_c2_amended (dirs : List (String × DocState)) (paper_id : String)
    (h : idInSomeDoc (some dirs) paper_id = false) :
    extract_info (some dirs) paper_id = Except.ok (notFoundMsg paper_id) ∧
    extract_info_ws (some dirs) paper_id = Except.ok (notFoundMsg paper_id) ∧
    extract_info none paper_id = Except.ok dirMissingMsg ∧
    extract_info_ws none paper_id = Except.error (PyExc.fileNotFoundError "papers") := by
  have hscan := extract_scan_eq_none dirs paper_id h
  exact ⟨by simp [extract_info, hscan], by simp [extract_info_ws, hscan], rfl, rfl⟩

/-- Witness for the amended C2 on a store with one corrupt and one valid
document, neither containing the id. -/
theorem extract_info_c2_witness :
    extract_info (some [("machine_learning", DocState.corrupt),
        ("ai", DocState.valid [("2301.00001v1", infoA)])]) "1310.7911v2"
      = Except.ok (notFoundMsg "1310.7911v2") ∧
    extract_info_ws (some [("machine_learning", DocState.corrupt),
        ("ai", DocState.valid [("2301.00001v1", infoA)])]) "1310.7911v2"
      = Except.ok (notFoundMsg "1310.7911v2") := by
  refine ⟨(extract_info_c2_amended [("machine_learning", DocState.corrupt),
      ("ai", DocState.valid [("2301.00001v1", infoA)])] "1310.7911v2" (by decide)).1,
    (extract_info_c2_amended [("machine_learning", DocState.corrupt),
      ("ai", DocState.valid [("2301.00001v1", infoA)])] "1310.7911v2" (by decide)).2.1⟩

theorem allCounts_aux (dirs : List (String × DocState)) (acc : List (String × CountVal))
    (hnd : (dirs.map (fun p => denormalizeTopic p.1)).Nodup)
    (hdisj : ∀ p ∈ dirs, dictHasKey acc (denormalizeTopic p.1) = false) :
    List.foldl (fun counts p =>
      match p.2 with
      | DocState.valid m => dictUpsert counts (denormalizeTopic p.1) (CountVal.count m.length)
      | DocState.corrupt => dictUpsert counts (denormalizeTopic p.1) (CountVal.count 0)
      | DocState.absent => counts) acc dirs
    = acc ++ allCountsSpec dirs := by
  induction dirs generalizing acc with
  | nil => simp [allCountsSpec]
  | cons p rest ih =>
    obtain ⟨n, st⟩ := p
    have hnd2 : (rest.map (fun p => denormalizeTopic p.1)).Nodup :=
      (List.nodup_cons.mp hnd).2
    have hhead : denormalizeTopic n ∉ rest.map (fun p => denormalizeTopic p.1) :=
      (List.nodup_cons.mp hnd).1
    have hne : ∀ q ∈ rest, denormalizeTopic n ≠ denormalizeTopic q.1 := by
      intro q hq he
      exact hhead (by
        rw [he]
        exact List.mem_map_of_mem (fun p => denormalizeTopic p.1) hq)
    have hacc : dictHasKey acc (denormalizeTopic n) = false :=
      hdisj (n, st) (List.mem_cons_self _ _)
    have hdisj2 : ∀ v : CountVal, ∀ q ∈ rest,
        dictHasKey (acc ++ [(denormalizeTopic n, v)]) (denormalizeTopic q.1) = false := by
      intro v q hq
      rw [dictHasKey_append]
      have h1 : dictHasKey acc (denormalizeTopic q.1) = false :=
        hdisj q (List.mem_cons_of_mem _ hq)
      have h2 : dictHasKey [(denormalizeTopic n, v)] (denormalizeTopic q.1) = false := by
        simp [dictHasKey, hne q hq]
      rw [h1, h2]
      rfl
    cases st with
    | absent =>
      simp only [List.foldl_cons]
      rw [ih acc hnd2 (fun q hq => hdisj q (List.mem_cons_of_mem _ hq))]
      have : allCountsSpec ((n, DocState.absent) :: rest) = allCountsSpec rest := by
        simp [allCountsSpec, docPresentB]
      rw [this]
    | corrupt =>
      simp only [List.foldl_cons]
      rw [dictUpsert_of_not_hasKey acc (denormalizeTopic n) (CountVal.count 0) hacc]
      rw [ih _ hnd2 (hdisj2 (CountVal.count 0))]
      have : allCountsSpec ((n, DocState.corrupt) :: rest)
          = (denormalizeTopic n, CountVal.count 0) :: allCountsSpec rest := by
        simp [allCountsSpec, docPresentB, docLen]
      rw [this, List.append_assoc]
      rfl
    | valid m =>
      simp only [List.foldl_cons]
      rw [dictUpsert_of_not_hasKey acc (denormalizeTopic n) (CountVal.count m.length) hacc]
      rw [ih _ hnd2 (hdisj2 (CountVal.count m.length))]
      have : allCountsSpec ((n, DocState.valid m) :: rest)
          = (denormalizeTopic n, CountVal.count m.length) :: allCountsSpec rest := by
        simp [allCountsSpec, docPresentB, docLen]
      rw [this, List.append_assoc]
      rfl

/-- C3 counterexample: on a papers directory holding topic directories
machine_learning (corrupt document) and ai (no document), the no-argument
get_paper_count returns a single entry keyed by the display name
"machine learning"; neither existing topic directory name is a key, and the
directory whose document is absent is omitted instead of counted as 0. -/
theorem get_paper_count_all_c3_counterexample :
    get_paper_count (some [("machine_learning", DocState.corrupt),
        ("ai", DocState.absent)]) Option.none
      = [("machine learning", CountVal.count 0)] ∧
    "machine_learning" ∉ dictKeys (get_paper_count
        (some [("machine_learning", DocState.corrupt), ("ai", DocState.absent)])
        Option.none) ∧
    "ai" ∉ dictKeys (get_paper_count
        (some [("machine_learning", DocState.corrupt), ("ai", DocState.absent)])
        Option.none) := by
  refine ⟨by decide, by decide, by decide⟩

/-- Claim C3 amended: with no topic argument, get_paper_count returns the
{"error": ...} mapping when the papers directory is absent; otherwise
(when no two directory display names collide) one entry per topic directory
whose document file is present, keyed by the display name (underscores to
spaces), with the entry count for a parseable document and 0 for a corrupt
one - directories whose document is absent are omitted entirely. -/
theorem get_paper_count_all_c3_amended (dirs : List (String × DocState))
    (hnd : (dirs.map (fun p => denormalizeTopic p.1)).Nodup) :
    get_paper_count none Option.none
      = [("error", CountVal.errMsg "Papers directory does not exist")] ∧
    get_paper_count (some dirs) Option.none = allCountsSpec dirs := by
  refine ⟨rfl, ?_⟩
  show allCounts dirs = allCountsSpec dirs
  exact allCounts_aux dirs [] hnd (fun p hp => rfl)

/-- Witness for the amended C3 on a concrete three-directory store. -/
theorem get_paper_count_all_c3_witness :
    get_paper_count (some [("machine_learning", DocState.corrupt),
        ("ai", DocState.valid [("2301.00001v1", infoA)]),
        ("physics", DocState.absent)]) Option.none
      = [("machine learning", CountVal.count 0), ("ai", CountVal.count 1)] := by
  have h := (get_paper_count_all_c3_amended [("machine_learning", DocState.corrupt),
    ("ai", DocState.valid [("2301.00001v1", infoA)]),
    ("physics", DocState.absent)] (by decide)).2
  rw [h]
  decide

/-- C8 counterexample: asking for topic "ml" when the topic directory
exists but holds no papers_info.json returns the empty mapping, not
{"ml": 0} as the claim states. -/
theorem get_paper_count_topic_c8_counterexample :
    get_paper_count (some [("ml", DocState.absent)]) (some "ml") = [] ∧
    "ml" ∉ dictKeys (get_paper_count (some [("ml", DocState.absent)]) (some "ml")) := by
  refine ⟨by decide, by decide⟩

/-- Claim C8 amended: for a nonempty topic argument over an existing papers
directory, the result maps the topic to its document's entry count when the
document parses, to 0 when the document is corrupt or the topic directory
is missing entirely, and is the empty mapping when the topic directory
exists without a document file; an empty topic string is falsy in Python
and falls through to the all-topics branch. -/
theorem get_paper_count_topic_c8_amended (dirs : List (String × DocState)) (t : String)
    (h : t ≠ "") :
    get_paper_count (some dirs) (some t)
      = (match dictGet dirs (normalizeTopic t) with
         | some (DocState.valid m) => [(t, CountVal.count m.length)]
         | some DocState.corrupt => [(t, CountVal.count 0)]
         | some DocState.absent => []
         | none => [(t, CountVal.count 0)]) ∧
    get_paper_count (some dirs) (some "") = allCounts dirs := by
  constructor
  · have htr : pyTruthyOptStr (some t) = true := by simp [pyTruthyOptStr, h]
    cases hget : dictGet dirs (normalizeTopic t) with
    | none =>
      have hk : dictHasKey dirs (normalizeTopic t) = false := by
        rw [dictHasKey_eq_isSome, hget]
        rfl
      simp [get_paper_count, htr, hk, dictUpsert, dictHasKey]
    | some st =>
      have hk : dictHasKey dirs (normalizeTopic t) = true := by
        rw [dictHasKey_eq_isSome, hget]
        rfl
      cases st with
      | absent => simp [get_paper_count, htr, hk, hget, docPresentB]
      | corrupt =>
        simp [get_paper_count, htr, hk, hget, docPresentB, dictUpsert, dictHasKey]
      | valid m =>
        simp [get_paper_count, htr, hk, hget, docPresentB, dictUpsert, dictHasKey]
  · rfl

/-- Witness for the amended C8: a valid one-entry document counted under the
topic string as given (not the normalized directory name). -/
theorem get_paper_count_topic_c8_witness :
    get_paper_count (some [("machine_learning", DocState.valid [("2301.00001v1", infoA)])])
        (some "Machine Learning")
      = [("Machine Learning", CountVal.count 1)] := by
  have h := (get_paper_count_topic_c8_amended
    [("machine_learning", DocState.valid [("2301.00001v1", infoA)])]
    "Machine Learning" (by decide)).1
  rw [h]
  decide

theorem fsHasDir_fsSetDoc (fs : PapersFS) (dir : String) (st : DocState) :
    fsHasDir (fsSetDoc fs dir st) dir = true := by
  cases fs with
  | none =>
    simp [fsHasDir, fsSetDoc, dictHasKey_upsert]
  | some dirs =>
    simp [fsHasDir, fsSetDoc, dictHasKey_upsert]

theorem fsDocPresent_fsSetDoc_valid (fs : PapersFS) (dir : String)
    (u : List (String × PaperInfo)) :
    fsDocPresent (fsSetDoc fs dir (DocState.valid u)) dir = true := by
  cases fs with
  | none => simp [fsDocPresent, fsSetDoc, dictGet_upsert_self]
  | some dirs => simp [fsDocPresent, fsSetDoc, dictGet_upsert_self]

/-- C9 counterexample: a first search whose external query returns no
results leaves the filesystem untouched in src/mcp_server.py - the
normalized topic directory is not created and holds no document, against
the claim's "regardless of how many results". -/
theorem search_creates_dir_c9_counterexample :
    search_papers none "machine learning" [] = (none, []) ∧
    fsHasDir (search_papers none "machine learning" []).1 "machine_learning" = false ∧
    fsDocPresent (search_papers none "machine learning" []).1 "machine_learning" = false := by
  refine ⟨rfl, rfl, rfl⟩

/-- Claim C9 amended: after a first search that returned at least one
result, src/mcp_server.py's search_papers leaves the normalized topic
directory existing with a papers_info.json present; the
with-sources variant guarantees this for every result list, including the
empty one. -/
theorem search_creates_dir_c9_amended (fs : PapersFS) (topic : String)
    (results : List (String × PaperInfo)) (hne : results ≠ []) :
    (fsHasDir (search_papers fs topic results).1 (normalizeTopic topic) = true ∧
     fsDocPresent (search_papers fs topic results).1 (normalizeTopic topic) = true) ∧
    (∀ rs : List (String × PaperInfo),
      fsHasDir (search_papers_ws fs topic rs).1 (normalizeTopic topic) = true ∧
      fsDocPresent (search_papers_ws fs topic rs).1 (normalizeTopic topic) = true) := by
  constructor
  · cases results with
    | nil => exact absurd rfl hne
    | cons p rest =>
      have hsp : (search_papers fs topic (p :: rest)).1
          = fsSetDoc fs (normalizeTopic topic)
              (DocState.valid
                (dictInsertAll (loadDoc (fsGetDoc fs (normalizeTopic topic))) (p :: rest))) := rfl
      rw [hsp]
      exact ⟨fsHasDir_fsSetDoc fs _ _, fsDocPresent_fsSetDoc_valid fs _ _⟩
  · intro rs
    exact ⟨fsHasDir_fsSetDoc fs _ _, fsDocPresent_fsSetDoc_valid fs _ _⟩

/-- Witness for the amended C9. -/
theorem search_creates_dir_c9_witness :
    fsHasDir (search_papers none "quantum computing" [("2301.00001v1", infoA)]).1
      (normalizeTopic "quantum computing") = true ∧
    fsDocPresent (search_papers none "quantum computing" [("2301.00001v1", infoA)]).1
      (normalizeTopic "quantum computing") = true ∧
    fsDocPresent (search_papers_ws none "quantum computing" []).1
      (normalizeTopic "quantum computing") = true := by
  refine ⟨((search_creates_dir_c9_amended none "quantum computing"
      [("2301.00001v1", infoA)] (by decide)).1).1,
    ((search_creates_dir_c9_amended none "quantum computing"
      [("2301.00001v1", infoA)] (by decide)).1).2,
    ((search_creates_dir_c9_amended none "quantum computing"
      [("2301.00001v1", infoA)] (by decide)).2 []).2⟩

theorem register_tools_cons (st : ChatBotState) (session : Nat) (t : ToolSpec)
    (ts : List ToolSpec) :
    register_tools st session (t :: ts)
      = register_tools
          { st with tool_to_session := dictUpsert st.tool_to_session t.name session,
                    available_tools := st.available_tools ++ [t] } session ts := rfl

theorem register_tools_catalog (ts : List ToolSpec) (st : ChatBotState) (session : Nat) :
    (register_tools st session ts).available_tools = st.available_tools ++ ts := by
  induction ts generalizing st with
  | nil => simp [register_tools]
  | cons t rest ih =>
    rw [register_tools_cons, ih]
    simp

theorem register_tools_index_not_mem (ts : List ToolSpec) (st : ChatBotState)
    (session : Nat) (n : String) (h : ∀ t ∈ ts, n ≠ t.name) :
    dictGet (register_tools st session ts).tool_to_session n
      = dictGet st.tool_to_session n := by
  induction ts generalizing st with
  | nil => rfl
  | cons t rest ih =>
    rw [register_tools_cons, ih _ (fun q hq => h q (List.mem_cons_of_mem _ hq))]
    exact dictGet_upsert_ne _ _ _ _
      (fun e => h t (List.mem_cons_self _ _) e.symm)

theorem register_tools_index_mem (ts : List ToolSpec) (st : ChatBotState)
    (session : Nat) (n : String) (h : n ∈ ts.map ToolSpec.name) :
    dictGet (register_tools st session ts).tool_to_session n = some session := by
  induction ts generalizing st with
  | nil => simp at h
  | cons t rest ih =>
    by_cases hr : n ∈ rest.map ToolSpec.name
    · rw [register_tools_cons]
      exact ih _ hr
    · have hn : n = t.name := by
        rw [List.map_cons] at h
        rcases List.mem_cons.mp h with h1 | h2
        · exact h1
        · exact absurd h2 hr
      rw [register_tools_cons,
          register_tools_index_not_mem rest _ session n
            (fun q hq he => hr (by
              rw [he]
              exact List.mem_map_of_mem ToolSpec.name hq))]
      rw [hn]
      exact dictGet_upsert_self _ _ _

/-- C4 counterexample: registering two backends that both expose a tool
named "fetch" leaves BOTH descriptors in available_tools (the earlier
backend's entry included, so catalog names are not unique), while
tool_to_session holds only the later session - the aggregated catalog does
not reflect only the later-registered backend as claimed. -/
theorem catalog_c4_counterexample :
    (connect_to_server (connect_to_server chatbotInit 1 [fetchA]) 2 [fetchB]).available_tools
      = [fetchA, fetchB] ∧
    fetchA ∈ (connect_to_server (connect_to_server chatbotInit 1 [fetchA]) 2
        [fetchB]).available_tools ∧
    ¬ ((connect_to_server (connect_to_server chatbotInit 1 [fetchA]) 2
        [fetchB]).available_tools.map ToolSpec.name).Nodup ∧
    (connect_to_server (connect_to_server chatbotInit 1 [fetchA]) 2 [fetchB]).tool_to_session
      = [("fetch", 2)] := by
  refine ⟨rfl, by decide, by decide, rfl⟩

/-- Claim C4 amended: after two registrations in sequence, the dispatch
index maps every name exposed by the second backend to the
later-registered session (last write wins), but the aggregated catalog is
the concatenation of both backends' descriptor lists, so a colliding name
appears twice and catalog names are not unique. -/
theorem catalog_c4_amended (st : ChatBotState) (s1 s2 : Nat) (ts1 ts2 : List ToolSpec)
    (n : String) (hn : n ∈ ts2.map ToolSpec.name) :
    dictGet (connect_to_server (connect_to_server st s1 ts1) s2 ts2).tool_to_session n
      = some s2 ∧
    (connect_to_server (connect_to_server st s1 ts1) s2 ts2).available_tools
      = st.available_tools ++ ts1 ++ ts2 := by
  constructor
  · exact register_tools_index_mem ts2 _ s2 n hn
  · show (register_tools _ s2 ts2).available_tools = _
    rw [register_tools_catalog]
    show (register_tools _ s1 ts1).available_tools ++ ts2 = _
    rw [register_tools_catalog]

/-- Witness for the amended C4 at the two-backend "fetch" scenario. -/
theorem catalog_c4_witness :
    dictGet (connect_to_server (connect_to_server chatbotInit 1 [fetchA]) 2
        [fetchB]).tool_to_session "fetch" = some 2 ∧
    (connect_to_server (connect_to_server chatbotInit 1 [fetchA]) 2
        [fetchB]).available_tools
      = chatbotInit.available_tools ++ [fetchA] ++ [fetchB] := by
  exact catalog_c4_amended chatbotInit 1 2 [fetchA] [fetchB] "fetch" (by decide)

/-- C5 counterexample: in chat_with_gpt
(src/mcp_chatbot_with_sources_and_prompts.py), an argument payload that is
not valid JSON is NOT replaced by an empty mapping: json.loads raises
inside the tool loop before any tool runs (no tool message is appended),
and the query-level except turns the whole query into an apology string -
the parse failure is fatal to that query, against the claim. -/
theorem parse_failure_c5_counterexample :
    pyJsonLoads "\x7binvalid json"
      = Except.error "Expecting property name enclosed in double quotes" ∧
    execToolCallsWS invoke0 [] [tcBad]
      = Except.error ("Expecting property name enclosed in double quotes", []) ∧
    chatLoopWS llm0 invoke0 3 0 [] ⟨none, [tcBad]⟩
      = some (some
          "Sorry, I encountered an error: Expecting property name enclosed in double quotes") := by
  refine ⟨rfl, rfl, by decide⟩

/-- Claim C5 amended: in the process_query loops of src/mcp_chatbot.py and
src/mcp_client.py, a tool call whose payload fails JSON parsing is invoked
with the empty argument mapping and the loop proceeds without raising; in
chat_with_gpt of src/mcp_chatbot_with_sources_and_prompts.py the unguarded
json.loads failure instead propagates to the query-level handler, which
aborts the query without invoking the tool. -/
theorem parse_failure_c5_amended (callTool : String → Json → String)
    (index : List (String × Nat)) (s : Nat) (msgs : List Message) (tc : ToolCall)
    (rest : List ToolCall) (m : String)
    (hparse : pyJsonLoads tc.arguments = Except.error m)
    (hsess : dictGet index tc.name = some s) :
    execToolCalls callTool index msgs (tc :: rest)
      = execToolCalls callTool index
          (msgs ++ [Message.tool tc.id (callTool tc.name (Json.obj []))]) rest ∧
    execToolCallsClient callTool msgs (tc :: rest)
      = execToolCallsClient callTool
          (msgs ++ [Message.tool tc.id (callTool tc.name (Json.obj []))]) rest ∧
    execToolCallsWS callTool msgs (tc :: rest) = Except.error (m, msgs) := by
  have hargs : parsedArgs tc.arguments = Json.obj [] := by
    simp [parsedArgs, hparse]
  refine ⟨?_, ?_, ?_⟩
  · simp [execToolCalls, hsess, hargs]
  · simp [execToolCallsClient, hargs]
  · simp [execToolCallsWS, hparse]

/-- Witness for the amended C5 at the "\x7binvalid json" payload. -/
theorem parse_failure_c5_witness :
    execToolCalls callTool0 index0 [] [tcBad]
      = execToolCalls callTool0 index0
          [Message.tool "call_1" (callTool0 "search_papers" (Json.obj []))] [] ∧
    execToolCallsClient callTool0 [] [tcBad]
      = execToolCallsClient callTool0
          [Message.tool "call_1" (callTool0 "search_papers" (Json.obj []))] [] := by
  refine ⟨(parse_failure_c5_amended callTool0 index0 1 [] tcBad []
      "Expecting property name enclosed in double quotes" rfl rfl).1,
    (parse_failure_c5_amended callTool0 index0 1 [] tcBad []
      "Expecting property name enclosed in double quotes" rfl rfl).2.1⟩

/-- C6 counterexample: in the with-sources variant, dispatching an unknown
tool name does not raise - call_tool returns the string "Unknown tool: ..."
and the loop appends it as an ordinary tool-role message and proceeds,
against the claim that every unknown-name dispatch raises a lookup fault
with no tool message appended. -/
theorem unknown_tool_c6_counterexample :
    call_tool invoke0 "nonexistent_tool" (Json.obj []) = "Unknown tool: nonexistent_tool" ∧
    execToolCallsWS invoke0 [] [tcUnknown]
      = Except.ok [Message.tool "call_2" "Unknown tool: nonexistent_tool"] := by
  refine ⟨rfl, rfl⟩

/-- Claim C6 amended: in src/mcp_chatbot.py's process_query, a tool name
absent from tool_to_session raises KeyError from the dict lookup, which
propagates out of the tool-execution step - no tool is invoked and no
tool-role message is appended for that call, and the step aborts the query
by raising; in the with-sources variant, call_tool returns an
"Unknown tool" string instead, which IS appended as a tool message. -/
theorem unknown_tool_c6_amended (llm : Nat → AssistantMsg)
    (callTool : String → Json → String) (index : List (String × Nat))
    (msgs : List Message) (tc : ToolCall) (rest : List ToolCall)
    (h : dictGet index tc.name = none) :
    execToolCalls callTool index msgs (tc :: rest)
      = Except.error (PyExc.keyError tc.name, msgs) ∧
    (∀ st : LoopState, st.response.content = none →
      st.response.tool_calls = tc :: rest →
      step llm callTool index st
        = StepResult.raised (PyExc.keyError tc.name)
            (st.messages ++ [Message.assistant none (tc :: rest)])) := by
  have hexec : ∀ ms, execToolCalls callTool index ms (tc :: rest)
      = Except.error (PyExc.keyError tc.name, ms) := by
    intro ms
    simp [execToolCalls, h]
  refine ⟨hexec msgs, ?_⟩
  intro st hcnone ht
  have htr : pyTruthyStr st.response.content = false := by
    rw [hcnone]
    rfl
  have hm1 : stepMsgs1 st = st.messages := by
    simp [stepMsgs1, htr]
  simp [step, htr, ht, hm1, hcnone, hexec]

/-- Witness for the amended C6 at an unregistered tool name. -/
theorem unknown_tool_c6_witness :
    execToolCalls callTool0 index0 [] [tcUnknown]
      = Except.error (PyExc.keyError "nonexistent_tool", []) ∧
    step llm0 callTool0 index0 ⟨[], ⟨none, [tcUnknown]⟩, 0⟩
      = StepResult.raised (PyExc.keyError "nonexistent_tool")
          [Message.assistant none [tcUnknown]] := by
  refine ⟨(unknown_tool_c6_amended llm0 callTool0 index0 [] tcUnknown [] rfl).1,
    ?_⟩
  exact (unknown_tool_c6_amended llm0 callTool0 index0 [] tcUnknown [] rfl).2
    ⟨[], ⟨none, [tcUnknown]⟩, 0⟩ rfl rfl

/-- Claim C10: a model response with neither text content nor tool calls
makes the process_query while-loop of both chatbot variants spin forever:
the loop body leaves the state unchanged (no branch fires, the response is
never replaced, no further LLM call happens), so the loop never
terminates at any fuel. -/
theorem loop_divergence_c10 (llm : Nat → AssistantMsg)
    (callTool : String → Json → String) (index : List (String × Nat))
    (st : LoopState) (hc : pyTruthyStr st.response.content = false)
    (ht : st.response.tool_calls = []) :
    step llm callTool index st = StepResult.next st ∧
    (∀ fuel, runLoop llm callTool index fuel st = none) ∧
    stepClient llm callTool st = StepResult.next st ∧
    (∀ fuel, runLoopClient llm callTool fuel st = none) := by
  have hm1 : stepMsgs1 st = st.messages := by
    simp [stepMsgs1, hc]
  have hstep : step llm callTool index st = StepResult.next st := by
    simp [step, hc, ht, hm1]
  have hstepc : stepClient llm callTool st = StepResult.next st := by
    simp [stepClient, hc, ht, hm1]
  refine ⟨hstep, ?_, hstepc, ?_⟩
  · intro fuel
    induction fuel with
    | zero => rfl
    | succ f ihf =>
      simp only [runLoop, hstep]
      exact ihf
  · intro fuel
    induction fuel with
    | zero => rfl
    | succ f ihf =>
      simp only [runLoopClient, hstepc]
      exact ihf

/-- Witness for C10 at the empty response. -/
theorem loop_divergence_c10_witness :
    step llm0 callTool0 index0 stEmptyResp = StepResult.next stEmptyResp ∧
    runLoop llm0 callTool0 index0 1000 stEmptyResp = none ∧
    stepClient llm0 callTool0 stEmptyResp = StepResult.next stEmptyResp ∧
    runLoopClient llm0 callTool0 1000 stEmptyResp = none := by
  refine ⟨(loop_divergence_c10 llm0 callTool0 index0 stEmptyResp rfl rfl).1,
    (loop_divergence_c10 llm0 callTool0 index0 stEmptyResp rfl rfl).2.1 1000,
    (loop_divergence_c10 llm0 callTool0 index0 stEmptyResp rfl rfl).2.2.1,
    (loop_divergence_c10 llm0 callTool0 index0 stEmptyResp rfl rfl).2.2.2 1000⟩
